import Mathlib

/-!
Shallow embedding of `src/configs/vulcan/prime_cache.c` (the gem5 cache-priming
workload) and proofs of the specification's claims about it.

The buffer is modelled as a total function `Nat → Nat` whose values at
in-range offsets are the bytes of the 16 KiB allocation; a store truncates
modulo 256, mirroring `uint8_t` assignment.  Each phase of `main` is embedded
as a structurally recursive function that also produces the list of externally
visible events (byte reads/writes, m5 pseudo-instructions, the stderr
diagnostic, the volatile sink store, and `free`) in program order.
-/

namespace PrimeCache

/-- `CACHE_SIZE_BYTES` from the source: `16 * 1024`. -/
def CACHE_SIZE_BYTES : Nat := 16 * 1024

/-- `CACHE_LINE_BYTES` from the source: `64`. -/
def CACHE_LINE_BYTES : Nat := 64

/-- `NUM_CACHE_LINES` from the source: `CACHE_SIZE_BYTES / CACHE_LINE_BYTES`. -/
def NUM_CACHE_LINES : Nat := CACHE_SIZE_BYTES / CACHE_LINE_BYTES

/-- The byte buffer: offset → byte value. -/
def Buf : Type := Nat → Nat

/-- A `uint8_t` store: the written value is truncated modulo 256. -/
def store (b : Buf) (off v : Nat) : Buf :=
  fun j => if j = off then v % 256 else b j

/-- Externally visible events of one run of `main`, in program order.
`read off` / `write off v` are byte accesses to the buffer; `resetStats` and
`dumpStats` are the two m5 pseudo-instructions (`m5_reset_stats` /
`m5_dump_stats`); `stderrAllocFailed` models
`fprintf(stderr, "aligned_alloc failed\n")`; `sinkStore v` is the volatile
store `sink = (uint8_t)checksum`; `freeBuf` is `free(buf)`. -/
inductive Ev : Type
  | read : Nat → Ev
  | write : Nat → Nat → Ev
  | resetStats : Ev
  | dumpStats : Ev
  | stderrAllocFailed : Ev
  | sinkStore : Nat → Ev
  | freeBuf : Ev
  deriving DecidableEq

/-- Phase 0 loop, first `n` iterations: `for (i = 0; i < n; i++) buf[i] = (uint8_t)i;`
Returns the buffer after the loop together with the write events in order. -/
def coldAuxT : Nat → Buf → Buf × List Ev
  | 0, b => (b, [])
  | n + 1, b =>
    let r := coldAuxT n b
    (store r.1 n n, r.2 ++ [Ev.write n (n % 256)])

/-- Phase 0 (cold initialization): the full loop over `CACHE_SIZE_BYTES` bytes. -/
def coldTouchT (b : Buf) : Buf × List Ev :=
  coldAuxT CACHE_SIZE_BYTES b

/-- Phase 1 loop, first `n` iterations:
`for (line = 0; line < n; line++) { offset = line*CACHE_LINE_BYTES; buf[offset] += 1; }`
Each iteration is a read of `buf[offset]` followed by a write of the
incremented byte. -/
def primeAuxT : Nat → Buf → Buf × List Ev
  | 0, b => (b, [])
  | n + 1, b =>
    let r := primeAuxT n b
    let offset := n * CACHE_LINE_BYTES
    let old := r.1 offset
    (store r.1 offset (old + 1),
      r.2 ++ [Ev.read offset, Ev.write offset ((old + 1) % 256)])

/-- Phase 1 (prime): the full loop over `NUM_CACHE_LINES` lines. -/
def primePassT (b : Buf) : Buf × List Ev :=
  primeAuxT NUM_CACHE_LINES b

/-- Phase 2 loop, first `n` iterations:
`for (line = 0; line < n; line++) checksum += buf[line * CACHE_LINE_BYTES];`
with a `uint64_t` accumulator (addition modulo `2 ^ 64`).  Returns the
checksum, the (unmodified) buffer and the read events in order. -/
def verifyAuxT : Nat → Buf → Nat × Buf × List Ev
  | 0, b => (0, b, [])
  | n + 1, b =>
    let r := verifyAuxT n b
    let offset := n * CACHE_LINE_BYTES
    ((r.1 + r.2.1 offset) % 2 ^ 64, r.2.1, r.2.2 ++ [Ev.read offset])

/-- Phase 2 (verify): the full loop over `NUM_CACHE_LINES` lines. -/
def verifyPassT (b : Buf) : Nat × Buf × List Ev :=
  verifyAuxT NUM_CACHE_LINES b

/-- Result of one run of `main`: the process exit code, the event trace, the
final value of the volatile `sink` (if reached) and the final checksum (if
reached). -/
structure RunResult where
  exitCode : Nat
  events : List Ev
  sinkByte : Option Nat
  checksum : Option Nat

/-- `main`, parameterised by whether `aligned_alloc` succeeds and by the
arbitrary initial contents `b0` of the allocation.  On failure: print the
diagnostic and return 1.  On success: cold-touch, prime, verify, sink store,
free, return 0 — exactly the statements of `main` in the source. -/
def mainRun (allocOk : Bool) (b0 : Buf) : RunResult :=
  if allocOk then
    let cold := coldTouchT b0
    let primed := primePassT cold.1
    let ver := verifyPassT primed.1
    { exitCode := 0
      events := cold.2 ++ primed.2 ++ ver.2.2 ++
        [Ev.sinkStore (ver.1 % 256), Ev.freeBuf]
      sinkByte := some (ver.1 % 256)
      checksum := some ver.1 }
  else
    { exitCode := 1
      events := [Ev.stderrAllocFailed]
      sinkByte := none
      checksum := none }

/-- The offsets of the write events of a trace, in order. -/
def writeOffsets (t : List Ev) : List Nat :=
  t.filterMap (fun e =>
    match e with
    | Ev.write off _ => some off
    | _ => none)

/-- `true` iff an event is not a buffer access at an offset `≥ size`. -/
def evInBounds (size : Nat) : Ev → Bool
  | Ev.read off => off < size
  | Ev.write off _ => off < size
  | _ => true

end PrimeCache

namespace PrimeCache

theorem clb_pos : 0 < CACHE_LINE_BYTES := by decide

theorem clb_eq : CACHE_LINE_BYTES = 64 := rfl

theorem csb_eq : CACHE_SIZE_BYTES = 16384 := rfl

theorem ncl_eq : NUM_CACHE_LINES = 256 := rfl

theorem coldAuxT_buf (n : Nat) (b : Buf) (j : Nat) :
    (coldAuxT n b).1 j = if j < n then j % 256 else b j := by
  induction n with
  | zero => simp [coldAuxT]
  | succ n ih =>
    by_cases hj : j = n
    · subst hj
      simp [coldAuxT, store]
    · simp only [coldAuxT, store, if_neg hj, ih]
      exact if_congr (by omega) rfl rfl

theorem coldAuxT_trace (n : Nat) (b : Buf) :
    (coldAuxT n b).2 = (List.range n).map (fun i => Ev.write i (i % 256)) := by
  induction n with
  | zero => rfl
  | succ n ih => simp [coldAuxT, ih, List.range_succ]

theorem primeAuxT_frame (n : Nat) (b : Buf) (j : Nat)
    (h : ∀ line, line < n → j ≠ line * CACHE_LINE_BYTES) :
    (primeAuxT n b).1 j = b j := by
  induction n with
  | zero => rfl
  | succ n ih =>
    have hj : j ≠ n * CACHE_LINE_BYTES := h n (Nat.lt_succ_self n)
    simp only [primeAuxT, store, if_neg hj]
    exact ih fun line hl => h line (Nat.lt_succ_of_lt hl)

theorem primeAuxT_hit (n : Nat) (b : Buf) (line : Nat) (h : line < n) :
    (primeAuxT n b).1 (line * CACHE_LINE_BYTES) =
      (b (line * CACHE_LINE_BYTES) + 1) % 256 := by
  induction n with
  | zero => omega
  | succ n ih =>
    by_cases hl : line = n
    · subst hl
      have hold : (primeAuxT line b).1 (line * CACHE_LINE_BYTES) =
          b (line * CACHE_LINE_BYTES) := by
        refine primeAuxT_frame line b _ fun l hln he => ?_
        have : line = l := Nat.eq_of_mul_eq_mul_right clb_pos he
        omega
      simp [primeAuxT, store, hold]
    · have hne : line * CACHE_LINE_BYTES ≠ n * CACHE_LINE_BYTES := fun he =>
        hl (Nat.eq_of_mul_eq_mul_right clb_pos he)
      simp only [primeAuxT, store, if_neg hne]
      exact ih (by omega)

theorem primeAuxT_trace (n : Nat) (b : Buf) :
    (primeAuxT n b).2 = (List.range n).flatMap (fun line =>
      [Ev.read (line * CACHE_LINE_BYTES),
       Ev.write (line * CACHE_LINE_BYTES) ((b (line * CACHE_LINE_BYTES) + 1) % 256)]) := by
  induction n with
  | zero => rfl
  | succ n ih =>
    have hold : (primeAuxT n b).1 (n * CACHE_LINE_BYTES) =
        b (n * CACHE_LINE_BYTES) := by
      refine primeAuxT_frame n b _ fun l hln he => ?_
      have : n = l := Nat.eq_of_mul_eq_mul_right clb_pos he
      omega
    simp [primeAuxT, ih, hold, List.range_succ]

theorem verifyAuxT_buf (n : Nat) (b : Buf) : (verifyAuxT n b).2.1 = b := by
  induction n with
  | zero => rfl
  | succ n ih => simp [verifyAuxT, ih]

theorem verifyAuxT_trace (n : Nat) (b : Buf) :
    (verifyAuxT n b).2.2 =
      (List.range n).map (fun line => Ev.read (line * CACHE_LINE_BYTES)) := by
  induction n with
  | zero => rfl
  | succ n ih => simp [verifyAuxT, ih, List.range_succ]

theorem verifyAuxT_congr (n : Nat) (b b' : Buf)
    (h : ∀ line, line < n → b (line * CACHE_LINE_BYTES) = b' (line * CACHE_LINE_BYTES)) :
    (verifyAuxT n b).1 = (verifyAuxT n b').1 := by
  induction n with
  | zero => rfl
  | succ n ih =>
    simp only [verifyAuxT, verifyAuxT_buf]
    rw [ih fun line hl => h line (by omega), h n (by omega)]

theorem verifyAuxT_plain (n : Nat) (b : Buf)
    (hb : ∀ line, line < n → b (line * CACHE_LINE_BYTES) < 256)
    (hn : n * 256 ≤ 2 ^ 64) :
    (verifyAuxT n b).1 =
      (List.range n).foldl (fun acc line => acc + b (line * CACHE_LINE_BYTES)) 0 ∧
    (verifyAuxT n b).1 ≤ n * 255 := by
  induction n with
  | zero => exact ⟨rfl, Nat.le_refl 0⟩
  | succ n ih =>
    obtain ⟨ih1, ih2⟩ := ih (fun line hl => hb line (by omega)) (by omega)
    have hbyte : b (n * CACHE_LINE_BYTES) < 256 := hb n (by omega)
    have hlt : (verifyAuxT n b).1 + b (n * CACHE_LINE_BYTES) < 2 ^ 64 := by omega
    have hstep : (verifyAuxT (n + 1) b).1 =
        ((verifyAuxT n b).1 + b (n * CACHE_LINE_BYTES)) % 2 ^ 64 := by
      simp [verifyAuxT, verifyAuxT_buf]
    constructor
    · rw [hstep, Nat.mod_eq_of_lt hlt, ih1, List.range_succ]
      simp
    · rw [hstep, Nat.mod_eq_of_lt hlt]
      omega

end PrimeCache

namespace PrimeCache

theorem off_lt {line : Nat} (h : line < NUM_CACHE_LINES) :
    line * CACHE_LINE_BYTES < CACHE_SIZE_BYTES := by
  rw [ncl_eq] at h
  rw [clb_eq, csb_eq]
  omega

theorem off_mod_succ_lt (line : Nat) : line * CACHE_LINE_BYTES % 256 + 1 < 256 := by
  rw [clb_eq]
  omega

theorem cold_val (b0 : Buf) {j : Nat} (h : j < CACHE_SIZE_BYTES) :
    (coldTouchT b0).1 j = j % 256 := by
  rw [coldTouchT, coldAuxT_buf, if_pos h]

theorem coldTouchT_trace (b0 : Buf) :
    (coldTouchT b0).2 = (List.range CACHE_SIZE_BYTES).map (fun i => Ev.write i (i % 256)) :=
  coldAuxT_trace CACHE_SIZE_BYTES b0

theorem primePassT_trace (b : Buf) :
    (primePassT b).2 = (List.range NUM_CACHE_LINES).flatMap (fun line =>
      [Ev.read (line * CACHE_LINE_BYTES),
       Ev.write (line * CACHE_LINE_BYTES) ((b (line * CACHE_LINE_BYTES) + 1) % 256)]) :=
  primeAuxT_trace NUM_CACHE_LINES b

theorem verifyPassT_trace (b : Buf) :
    (verifyPassT b).2.2 =
      (List.range NUM_CACHE_LINES).map (fun line => Ev.read (line * CACHE_LINE_BYTES)) :=
  verifyAuxT_trace NUM_CACHE_LINES b

theorem primed_hit (b0 : Buf) {line : Nat} (h : line < NUM_CACHE_LINES) :
    (primePassT (coldTouchT b0).1).1 (line * CACHE_LINE_BYTES) =
      (line * CACHE_LINE_BYTES % 256 + 1) % 256 := by
  rw [primePassT, primeAuxT_hit NUM_CACHE_LINES _ line h, cold_val b0 (off_lt h)]

/-- Closed form of the primed buffer at the line offsets: the cold value plus
one.  Derived characterization, used only to evaluate the checksum. -/
def primedBytes : Buf := fun j => j % 256 + 1

theorem primed_model (b0 : Buf) {line : Nat} (h : line < NUM_CACHE_LINES) :
    (primePassT (coldTouchT b0).1).1 (line * CACHE_LINE_BYTES) =
      primedBytes (line * CACHE_LINE_BYTES) := by
  rw [primed_hit b0 h, Nat.mod_eq_of_lt (off_mod_succ_lt line)]
  rfl

set_option maxRecDepth 8000 in
theorem verify_primedBytes : (verifyAuxT NUM_CACHE_LINES primedBytes).1 = 24832 := by
  decide

theorem checksum_value (b0 : Buf) :
    (verifyPassT (primePassT (coldTouchT b0).1).1).1 = 24832 := by
  rw [verifyPassT,
    verifyAuxT_congr NUM_CACHE_LINES _ primedBytes (fun line hl => primed_model b0 hl)]
  exact verify_primedBytes

theorem mainRun_true_events (b0 : Buf) :
    (mainRun true b0).events =
      (coldTouchT b0).2 ++ (primePassT (coldTouchT b0).1).2 ++
      (verifyPassT (primePassT (coldTouchT b0).1).1).2.2 ++
      [Ev.sinkStore ((verifyPassT (primePassT (coldTouchT b0).1).1).1 % 256),
       Ev.freeBuf] := rfl

theorem writeOffsets_rmw (f g : Nat → Nat) (l : List Nat) :
    writeOffsets (l.flatMap fun line => [Ev.read (f line), Ev.write (f line) (g line)]) =
      l.map f := by
  induction l with
  | nil => rfl
  | cons x xs ih =>
    simp only [List.flatMap_cons, writeOffsets, List.filterMap_append] at ih ⊢
    simp [ih]

theorem writeOffsets_writes (f : Nat → Nat) (l : List Nat) :
    writeOffsets (l.map fun i => Ev.write i (f i)) = l := by
  induction l with
  | nil => rfl
  | cons x xs ih =>
    simp only [List.map_cons, writeOffsets, List.filterMap_cons] at ih ⊢
    simp [ih]

theorem pairwise_offsets (n : Nat) :
    List.Pairwise (fun a b => a < b)
      ((List.range n).map (fun line => line * CACHE_LINE_BYTES)) := by
  refine (List.pairwise_map).mpr ?_
  refine (List.pairwise_lt_range n).imp ?_
  intro a b hab
  rw [clb_eq]
  omega

end PrimeCache

namespace PrimeCache

/-- C1: the claim says `main` emits the reset-statistics signal between the
cold-touch pass and the prime pass and the dump-statistics signal after the
verify pass and sink store.  The source's `main` never invokes
`m5_reset_stats` or `m5_dump_stats`: its event trace contains no occurrence
of either signal, contradicting the claim (and the file's own header
comment).  This theorem records what the code actually does. -/
theorem c1_main_emits_no_stat_signal (b0 : Buf) :
    (mainRun true b0).events.count Ev.resetStats = 0 ∧
    (mainRun true b0).events.count Ev.dumpStats = 0 := by
  have hnot : Ev.resetStats ∉ (mainRun true b0).events ∧
      Ev.dumpStats ∉ (mainRun true b0).events := by
    rw [mainRun_true_events]
    constructor <;>
      simp [coldTouchT_trace, primePassT_trace, verifyPassT_trace,
        List.mem_append, List.mem_map, List.mem_flatMap]
  exact ⟨List.count_eq_zero.mpr hnot.1, List.count_eq_zero.mpr hnot.2⟩

/-- C2: with the cold-touch contents `byte[i] = i mod 256` and one prime
pass, the verify pass reads `buffer[line*64]` for every `line < 256`, each
such byte equals `((line*64) mod 256) + 1` truncated to a byte, and the
final checksum is the plain sum of those 256 bytes (the 64-bit accumulator
never wraps). -/
theorem c2_checksum_determinism (b0 : Buf) :
    (∀ line, line < NUM_CACHE_LINES →
      (primePassT (coldTouchT b0).1).1 (line * CACHE_LINE_BYTES) =
        (line * CACHE_LINE_BYTES % 256 + 1) % 256) ∧
    (verifyPassT (primePassT (coldTouchT b0).1).1).2.2 =
      (List.range NUM_CACHE_LINES).map (fun line => Ev.read (line * CACHE_LINE_BYTES)) ∧
    (verifyPassT (primePassT (coldTouchT b0).1).1).1 =
      (List.range NUM_CACHE_LINES).foldl (fun acc line =>
        acc + (primePassT (coldTouchT b0).1).1 (line * CACHE_LINE_BYTES)) 0 := by
  refine ⟨fun line hl => primed_hit b0 hl, verifyPassT_trace _, ?_⟩
  refine (verifyAuxT_plain NUM_CACHE_LINES _ (fun line hl => ?_) ?_).1
  · rw [primed_hit b0 hl]
    exact Nat.mod_lt _ (by norm_num)
  · rw [ncl_eq]
    norm_num

theorem c2_checksum_determinism_witness :
    (primePassT (coldTouchT (fun _ => 0)).1).1 (0 * CACHE_LINE_BYTES) =
      (0 * CACHE_LINE_BYTES % 256 + 1) % 256 :=
  (c2_checksum_determinism (fun _ => 0)).1 0 (by decide)

/-- C3: the prime pass is, for each line in ascending order, a read of
`buffer[line * cacheLineBytes]` followed by a write of that byte plus one;
its write offsets are exactly `0, 64, ..., 255*64`, strictly increasing
(hence distinct, each touched exactly once), `lineCount` of them. -/
theorem c3_prime_rmw_coverage (b : Buf) :
    (primePassT b).2 = (List.range NUM_CACHE_LINES).flatMap (fun line =>
      [Ev.read (line * CACHE_LINE_BYTES),
       Ev.write (line * CACHE_LINE_BYTES) ((b (line * CACHE_LINE_BYTES) + 1) % 256)]) ∧
    writeOffsets (primePassT b).2 =
      (List.range NUM_CACHE_LINES).map (fun line => line * CACHE_LINE_BYTES) ∧
    List.Pairwise (fun a b' => a < b') (writeOffsets (primePassT b).2) ∧
    (writeOffsets (primePassT b).2).length = NUM_CACHE_LINES := by
  have hw : writeOffsets (primePassT b).2 =
      (List.range NUM_CACHE_LINES).map (fun line => line * CACHE_LINE_BYTES) := by
    rw [primePassT_trace]
    exact writeOffsets_rmw (fun line => line * CACHE_LINE_BYTES)
      (fun line => (b (line * CACHE_LINE_BYTES) + 1) % 256) (List.range NUM_CACHE_LINES)
  refine ⟨primePassT_trace b, hw, ?_, ?_⟩
  · rw [hw]
    exact pairwise_offsets NUM_CACHE_LINES
  · rw [hw]
    simp

/-- C4: when `aligned_alloc` fails, `main` prints the diagnostic to stderr
and returns 1, performing no buffer operation (its whole event trace is the
single stderr line); when allocation succeeds `main` runs to completion and
returns 0. -/
theorem c4_exit_codes (b0 : Buf) :
    (mainRun false b0).exitCode = 1 ∧
    (mainRun false b0).events = [Ev.stderrAllocFailed] ∧
    (mainRun true b0).exitCode = 0 :=
  ⟨rfl, rfl, rfl⟩

/-- C5: the cold-touch pass writes every byte of the buffer exactly once
(its write offsets are exactly `0, ..., cacheSizeBytes - 1` in order),
leaves `byte[i] = i mod 256`, and in `main` all of this precedes every
measured (prime or verify) access: the cold writes are a prefix of the
whole trace. -/
theorem c5_cold_touch (b0 : Buf) :
    (coldTouchT b0).2 =
      (List.range CACHE_SIZE_BYTES).map (fun i => Ev.write i (i % 256)) ∧
    writeOffsets (coldTouchT b0).2 = List.range CACHE_SIZE_BYTES ∧
    (∀ i, i < CACHE_SIZE_BYTES → (coldTouchT b0).1 i = i % 256) ∧
    (∃ rest, (mainRun true b0).events = (coldTouchT b0).2 ++ rest) := by
  refine ⟨coldTouchT_trace b0, ?_, fun i hi => cold_val b0 hi, ?_⟩
  · rw [coldTouchT_trace]
    exact writeOffsets_writes (fun i => i % 256) (List.range CACHE_SIZE_BYTES)
  · exact ⟨_, by rw [mainRun_true_events, List.append_assoc, List.append_assoc]⟩

theorem c5_cold_touch_witness :
    (coldTouchT (fun _ => 7)).1 0 = 0 % 256 :=
  (c5_cold_touch (fun _ => 7)).2.2.1 0 (by decide)

/-- C6: the cache geometry invariant holds for the compiled constants:
`CACHE_SIZE_BYTES` is an exact multiple of `CACHE_LINE_BYTES` and
`NUM_CACHE_LINES` is their quotient, concretely `16384 % 64 = 0` and
`NUM_CACHE_LINES = 256`. -/
theorem c6_geometry_invariant :
    CACHE_SIZE_BYTES % CACHE_LINE_BYTES = 0 ∧
    NUM_CACHE_LINES = CACHE_SIZE_BYTES / CACHE_LINE_BYTES ∧
    CACHE_SIZE_BYTES = 16384 ∧ CACHE_LINE_BYTES = 64 ∧ NUM_CACHE_LINES = 256 := by
  decide

/-- C7: the verify pass leaves the buffer unchanged (it only reads), so
running it twice in succession on the resulting state yields the identical
checksum both times. -/
theorem c7_verify_idempotent (b : Buf) :
    (verifyPassT b).2.1 = b ∧
    (verifyPassT ((verifyPassT b).2.1)).1 = (verifyPassT b).1 := by
  have hb : (verifyPassT b).2.1 = b := verifyAuxT_buf NUM_CACHE_LINES b
  exact ⟨hb, by rw [hb]⟩

end PrimeCache

namespace PrimeCache

theorem all_inBounds_cold :
    (((List.range CACHE_SIZE_BYTES).map (fun i => Ev.write i (i % 256))).all
      (evInBounds CACHE_SIZE_BYTES)) = true := by
  simp [List.all_eq_true, evInBounds]

theorem all_inBounds_rmw (b : Buf) :
    (((List.range NUM_CACHE_LINES).flatMap (fun line =>
      [Ev.read (line * CACHE_LINE_BYTES),
       Ev.write (line * CACHE_LINE_BYTES) ((b (line * CACHE_LINE_BYTES) + 1) % 256)])).all
      (evInBounds CACHE_SIZE_BYTES)) = true := by
  simp only [List.all_eq_true, List.mem_flatMap, List.mem_range, List.mem_cons,
    List.not_mem_nil, or_false]
  rintro e ⟨line, hl, he⟩
  have hoff : line * CACHE_LINE_BYTES < CACHE_SIZE_BYTES := off_lt hl
  rcases he with rfl | rfl <;> simpa [evInBounds] using hoff

theorem all_inBounds_reads :
    (((List.range NUM_CACHE_LINES).map (fun line => Ev.read (line * CACHE_LINE_BYTES))).all
      (evInBounds CACHE_SIZE_BYTES)) = true := by
  simp only [List.all_eq_true, List.mem_map, List.mem_range]
  rintro e ⟨line, hl, he⟩
  have hoff : line * CACHE_LINE_BYTES < CACHE_SIZE_BYTES := off_lt hl
  rw [← he]
  simpa [evInBounds] using hoff

/-- C8: every buffer access of a successful run is in bounds: each read or
write event in `main`'s trace addresses an offset strictly below
`CACHE_SIZE_BYTES`, so checked (`Option`-returning) indexing would never
take the out-of-range branch. -/
theorem c8_accesses_in_bounds (b0 : Buf) :
    ((mainRun true b0).events.all (evInBounds CACHE_SIZE_BYTES)) = true := by
  rw [mainRun_true_events, coldTouchT_trace, primePassT_trace, verifyPassT_trace]
  simp only [List.all_append, all_inBounds_cold, all_inBounds_rmw, all_inBounds_reads,
    Bool.true_and, Bool.and_true]
  rfl

/-- C9: the prime pass only modifies the bytes at offsets that are multiples
of `CACHE_LINE_BYTES`; every other byte of the buffer still holds its
cold-touch value `offset mod 256` after the prime pass. -/
theorem c9_prime_frame_property (b0 : Buf) (j : Nat) (h1 : j < CACHE_SIZE_BYTES)
    (h2 : j % CACHE_LINE_BYTES ≠ 0) :
    (primePassT (coldTouchT b0).1).1 j = j % 256 := by
  have hframe : (primePassT (coldTouchT b0).1).1 j = (coldTouchT b0).1 j := by
    refine primeAuxT_frame NUM_CACHE_LINES _ j fun line hl he => ?_
    exact h2 (by rw [he, Nat.mul_mod_left])
  rw [hframe, cold_val b0 h1]

theorem c9_prime_frame_property_witness :
    (primePassT (coldTouchT (fun _ => 0)).1).1 1 = 1 % 256 :=
  c9_prime_frame_property (fun _ => 0) 1 (by decide) (by decide)

/-- C10: for the compiled constants the final checksum is exactly 24832
(no 64-bit overflow ever occurs), and the byte stored to the volatile sink
is `24832 mod 256 = 0`. -/
theorem c10_checksum_24832 (b0 : Buf) :
    (mainRun true b0).checksum = some 24832 ∧
    (mainRun true b0).sinkByte = some 0 := by
  have hc : (mainRun true b0).checksum =
      some ((verifyPassT (primePassT (coldTouchT b0).1).1).1) := rfl
  have hs : (mainRun true b0).sinkByte =
      some ((verifyPassT (primePassT (coldTouchT b0).1).1).1 % 256) := rfl
  rw [hc, hs, checksum_value b0]
  norm_num

end PrimeCache
